/-
Verification of the seek/index engine, decoder-instance cache, and bounded
producer/consumer decode pipeline of the PyNvVideoCodec repository.

Shallow embedding of:
  - SPSCBuffer            (src/PyNvVideoCodec/utils/SPSCBuffer.hpp)
  - DecoderCache          (src/PyNvVideoCodec/utils/DecoderCache.hpp)
  - SeekUtils             (src/PyNvVideoCodec/src/SeekUtils.cpp, inc/SeekUtils.hpp)
  - RunDecoder            (src/PyNvVideoCodec/src/ThreadedDecoder.cpp)

The C++ code is concurrent (mutex + condition variable).  The embedding is
sequential: a blocking wait whose predicate is false at entry is modelled as
an explicit `blocked` outcome, and each operation is the atomic state
transition performed under the lock once the wait predicate holds.
-/
import Mathlib

/-! ## SPSCBuffer (SPSCBuffer.hpp)

State of `SPSCBuffer<T>`: the ring vector `mBuffer` (fixed length
`mCapacity`), `mHead`, `mTail`, `mCapacity`, `mCount`, and the drain flag
`mDrain`.  The mutex and condition variable have no sequential content. -/

structure SPSCBuffer (α : Type) where
  mBuffer : List α
  mHead : Nat
  mTail : Nat
  mCapacity : Nat
  mCount : Nat
  mDrain : Bool
deriving Repr, DecidableEq

/-- The `SPSCBuffer(size_t size)` constructor: a default-initialized vector of
`size` elements, head = tail = count = 0, drain = false. -/
def mkSPSC (α : Type) [Inhabited α] (size : Nat) : SPSCBuffer α :=
  { mBuffer := List.replicate size default
    mHead := 0
    mTail := 0
    mCapacity := size
    mCount := 0
    mDrain := false }

/-- `SPSCBuffer::PushEntry`: waits until `mCount < mCapacity`, then writes at
`mHead`, advances `mHead` modulo `mCapacity` and increments `mCount`.
Sequential model: `none` when the producer would block (buffer full). -/
def PushEntry (s : SPSCBuffer α) (entry : α) : Option (SPSCBuffer α) :=
  if s.mCount < s.mCapacity then
    some { s with
      mBuffer := s.mBuffer.set s.mHead entry
      mHead := (s.mHead + 1) % s.mCapacity
      mCount := s.mCount + 1 }
  else
    none

/-- `SPSCBuffer::PushDone`: sets the drain flag.  Never blocks. -/
def PushDone (s : SPSCBuffer α) : SPSCBuffer α :=
  { s with mDrain := true }

/-- `SPSCBuffer::Clear`: resets head, tail, count to zero and drain to false.
The buffer contents are not touched. -/
def SPSCClear (s : SPSCBuffer α) : SPSCBuffer α :=
  { s with mHead := 0, mTail := 0, mCount := 0, mDrain := false }

/-- Outcome of `SPSCBuffer::PopEntries`.  `err` carries the
`std::runtime_error` message together with the (unchanged) buffer state at
the throw; `blocked` is the sequential rendering of a wait whose predicate
does not hold at entry. -/
inductive PopResult (α : Type) where
  | err : String → SPSCBuffer α → PopResult α
  | blocked : PopResult α
  | ok : List α → SPSCBuffer α → PopResult α
deriving Repr, DecidableEq

/-- The message built into the `std::runtime_error` thrown by `PopEntries`. -/
def popErrMsg (batchSize capacity : Nat) : String :=
  "Got invalid value for batchSize. Got " ++ toString batchSize ++
    " Max allowed value is " ++ toString capacity

/-- The pop loop of `PopEntries`: reads `n` entries starting at `tail`,
advancing `tail` modulo `cap` after each read.  Returns the entries in order
together with the final tail position. -/
def popLoop [Inhabited α] (buf : List α) (cap : Nat) : Nat → Nat → List α × Nat
  | tail, 0 => ([], tail)
  | tail, n + 1 =>
      let e := buf.getD tail default
      let r := popLoop buf cap ((tail + 1) % cap) n
      (e :: r.1, r.2)

/-- The entries currently buffered, in pop order: `mCount` reads starting at
`mTail`. -/
def bufContents [Inhabited α] (s : SPSCBuffer α) : List α :=
  (popLoop s.mBuffer s.mCapacity s.mTail s.mCount).1

/-- `SPSCBuffer::PopEntries(batchSize)`:
  * `batchSize > mCapacity` throws (state unchanged);
  * `batchSize == 0` is replaced by the current `mCount`;
  * waits until `mCount >= batchSize || mDrain`;
  * if draining with fewer than `batchSize` entries, the effective batch is
    reduced to `mCount`;
  * pops exactly the effective number of entries from `mTail`. -/
def PopEntries [Inhabited α] (s : SPSCBuffer α) (batchSize : Nat) : PopResult α :=
  if s.mCapacity < batchSize then
    PopResult.err (popErrMsg batchSize s.mCapacity) s
  else
    let b := if batchSize = 0 then s.mCount else batchSize
    if s.mCount < b ∧ s.mDrain = false then
      PopResult.blocked
    else
      let eff := if s.mDrain = true ∧ s.mCount < b then s.mCount else b
      let r := popLoop s.mBuffer s.mCapacity s.mTail eff
      PopResult.ok r.1 { s with mTail := r.2, mCount := s.mCount - eff }

/-- One operation on the channel, for stating the state invariant over
arbitrary operation sequences. -/
inductive ChanOp (α : Type) where
  | push (a : α)
  | pushDone
  | pop (batchSize : Nat)
  | clear
deriving Repr, DecidableEq

/-- The state transition of one operation.  A blocked `push`/`pop` and a
thrown `pop` leave the state unchanged (the exception propagates before any
mutation). -/
def chanStep [Inhabited α] (s : SPSCBuffer α) : ChanOp α → SPSCBuffer α
  | ChanOp.push a =>
      match PushEntry s a with
      | some s' => s'
      | none => s
  | ChanOp.pushDone => PushDone s
  | ChanOp.pop b =>
      match PopEntries s b with
      | PopResult.ok _ s' => s'
      | PopResult.err _ s' => s'
      | PopResult.blocked => s
  | ChanOp.clear => SPSCClear s

/-- Runs a sequence of channel operations from a starting state. -/
def runChan [Inhabited α] (s : SPSCBuffer α) (ops : List (ChanOp α)) : SPSCBuffer α :=
  ops.foldl chanStep s

/-- The SPSCBuffer state invariant: the ring vector keeps its allocated
length, `0 ≤ mCount ≤ mCapacity`, and head/tail stay reduced modulo the
capacity. -/
def ChanInv (s : SPSCBuffer α) : Prop :=
  s.mBuffer.length = s.mCapacity ∧ s.mCount ≤ s.mCapacity ∧
    (0 < s.mCapacity → s.mHead < s.mCapacity ∧ s.mTail < s.mCapacity)

instance (s : SPSCBuffer α) : Decidable (ChanInv s) := by
  unfold ChanInv; infer_instance

/-! ## DecoderCache (DecoderCache.hpp)

`DecoderCache<Key, Value>` keeps `mCacheItems`, a list of key/value pairs in
recency order (front = most recently used), and `mCacheMap`, a hash map from
keys to list iterators.  The map is an O(1) index into the list and carries
no further state, so the embedding keeps the list alone. -/

structure DecoderCache (κ ν : Type) where
  mCapacity : Nat
  mCacheItems : List (κ × ν)
deriving Repr, DecidableEq

/-- The `DecoderCache(uint32_t capacity)` constructor: a capacity below 1 is
corrected to 1 (with a diagnostic). -/
def mkDecoderCache (κ ν : Type) (capacity : Nat) : DecoderCache κ ν :=
  if capacity < 1 then
    { mCapacity := 1, mCacheItems := [] }
  else
    { mCapacity := capacity, mCacheItems := [] }

/-- `mCacheMap.find(key)` on the embedded state: the first list cell whose
key matches. -/
def cacheFind [DecidableEq κ] (items : List (κ × ν)) (key : κ) : Option (κ × ν) :=
  items.find? (fun p => p.1 == key)

/-- `DecoderCache::GetDecoder`: on a miss returns `nullopt`; on a hit splices
the cell to the front of the list (most recently used) and returns its
value. -/
def GetDecoder [DecidableEq κ] (c : DecoderCache κ ν) (key : κ) :
    Option ν × DecoderCache κ ν :=
  match cacheFind c.mCacheItems key with
  | none => (none, c)
  | some p =>
      (some p.2,
        { c with mCacheItems := p :: c.mCacheItems.eraseP (fun q => q.1 == key) })

/-- `DecoderCache::PushDecoder`: if the key exists, overwrite its value and
splice the cell to the front (no eviction).  Otherwise, if the list is at
capacity, pop the back cell (least recently used) and return its value to
the caller; then emplace the new pair at the front.  The `getLast? = none`
arm is unreachable for caches built by the constructor (capacity ≥ 1); the
C++ would call `back()` on an empty list there. -/
def PushDecoder [DecidableEq κ] (c : DecoderCache κ ν) (key : κ) (value : ν) :
    Option ν × DecoderCache κ ν :=
  match cacheFind c.mCacheItems key with
  | some p =>
      (none,
        { c with mCacheItems :=
            (p.1, value) :: c.mCacheItems.eraseP (fun q => q.1 == key) })
  | none =>
      if c.mCacheItems.length = c.mCapacity then
        match c.mCacheItems.getLast? with
        | some last =>
            (some last.2,
              { c with mCacheItems := (key, value) :: c.mCacheItems.dropLast })
        | none =>
            (none, { c with mCacheItems := [(key, value)] })
      else
        (none, { c with mCacheItems := (key, value) :: c.mCacheItems })

/-- `DecoderCache::RemoveElement`: pops and returns the least recently used
entry, or `nullopt` when empty. -/
def RemoveElement [DecidableEq κ] (c : DecoderCache κ ν) :
    Option ν × DecoderCache κ ν :=
  match c.mCacheItems.getLast? with
  | none => (none, c)
  | some last => (some last.2, { c with mCacheItems := c.mCacheItems.dropLast })

/-! Concrete LRU scenario of claim C3: capacity 2, insert A=1, insert B=2,
`Get(A)`, insert C=3. -/

def lruC0 : DecoderCache Nat Nat := mkDecoderCache Nat Nat 2
def lruC1 : DecoderCache Nat Nat := (PushDecoder lruC0 1 10).2
def lruC2 : DecoderCache Nat Nat := (PushDecoder lruC1 2 20).2
def lruC3 : DecoderCache Nat Nat := (GetDecoder lruC2 1).2

/-! ## SeekUtils (SeekUtils.cpp / SeekUtils.hpp)

The SeekUtils fields, with the C++ member names.  `mFramesDecodedTillNow`
is `uint32_t` in the C++ and `targetValue` is computed as
`int targetValue = currentTargetIndex - mFramesDecodedTillNow;` — an
unsigned subtraction whose wrap-around reproduces the signed difference for
the magnitudes a video stream can reach, so the embedding uses `Int`. -/

/-- A decoded frame as SeekUtils observes it: the buffer handle
(`extBuf->data()`) and the presentation timestamp. -/
structure DFrame where
  data : Nat
  timestamp : Int
deriving Repr, DecidableEq, Inhabited

structure SeekState where
  mTargetFrames : List DFrame
  mPendingFrames : List DFrame
  mPreviousTargetIndex : Int
  mFrameSizeInBytes : Nat
  mFramesDecodedTillNow : Int
  mbDiscontinuityFlag : Bool
  mTargetFramePTS : Int
  mPreviouslyDecodedFramesPTS : List Int
  mbEOSreached : Bool
  bIsSeekDirectionBackwards : Bool
  bSeekToIndexSet : Bool
deriving Repr, DecidableEq

/-- The field values established by the SeekUtils constructor. -/
def initSeekState : SeekState :=
  { mTargetFrames := []
    mPendingFrames := []
    mPreviousTargetIndex := -1
    mFrameSizeInBytes := 0
    mFramesDecodedTillNow := 0
    mbDiscontinuityFlag := false
    mTargetFramePTS := 0
    mPreviouslyDecodedFramesPTS := []
    mbEOSreached := false
    bIsSeekDirectionBackwards := false
    bSeekToIndexSet := false }

/-- `SeekStatus::INVALID_INDEX_ENTRY` (SeekUtils.hpp). -/
def INVALID_INDEX_ENTRY : Int := -2

/-- `SeekUtils::setEOS(bool newVal)`: the body is `mbEOSreached = true;` —
the argument is ignored. -/
def setEOS (s : SeekState) (newVal : Bool) : SeekState :=
  { s with mbEOSreached := true }

/-- `SeekUtils::IsSeekBackwards(newTargetIdx)`: true iff a previous target
exists and the new target does not move forward; records the direction. -/
def IsSeekBackwards (s : SeekState) (newTargetIdx : Int) : Bool × SeekState :=
  if newTargetIdx ≤ s.mPreviousTargetIndex ∧ s.mPreviousTargetIndex ≠ -1 then
    (true, { s with bIsSeekDirectionBackwards := true })
  else
    (false, { s with bIsSeekDirectionBackwards := false })

/-- `SeekUtils::ShouldSeek(previous_target, current_target)`, parametric in
the key-frame lookup `GetKeyNearestKeyFrameIndexForTarget` (a demuxer / index
table collaborator, abstracted as `kf`).  Returns (needSeek, key-frame index
of the current target or INVALID_INDEX_ENTRY). -/
def ShouldSeek (kf : Int → Int) (previous_target current_target : Int) : Bool × Int :=
  let rightindex := kf current_target
  if previous_target = -1 then
    (true, rightindex)
  else
    let leftindex := kf previous_target
    if leftindex = INVALID_INDEX_ENTRY ∨ rightindex = INVALID_INDEX_ENTRY then
      (false, INVALID_INDEX_ENTRY)
    else if leftindex = rightindex then
      (false, rightindex)
    else if rightindex - previous_target < 4 then
      (false, rightindex)
    else
      (true, rightindex)

/-! ### Collaborator model for GetFramesByIdxList

The demuxer and hardware decoder are the opaque collaborators of spec §6.
The instance used here: the stream is a list of packets, one per frame, in
presentation order; `Demux` hands them out in order; `Seek(idx)` positions
the cursor at the nearest key frame at or before `idx` (av_seek_frame with
AVSEEK_FLAG_BACKWARD on the PTS of frame `idx`); the decoder emits exactly
one frame per non-empty packet, in order, with no reordering, and emits
nothing for an empty (discontinuity / end-of-stream) packet.
`NearestKeyFrameIndex` (spec §6) returns the index of the nearest preceding
key frame, or INVALID_INDEX_ENTRY when the index table has no entry for the
requested index. -/

/-- One packet of the modelled stream: presentation timestamp and key-frame
flag.  Every real packet has a nonzero byte count. -/
structure VPacket where
  pts : Int
  isKey : Bool
deriving Repr, DecidableEq

structure DemuxState where
  frames : List VPacket
  cursor : Nat
deriving Repr, DecidableEq

/-- Index of the nearest key frame at or before `idx` (−1 when none). -/
def keyIdxBefore (frames : List VPacket) : Nat → Int
  | 0 => if (frames.getD 0 { pts := 0, isKey := false }).isKey then 0 else -1
  | n + 1 =>
      if (frames.getD (n + 1) { pts := 0, isKey := false }).isKey then
        ((n : Int) + 1)
      else
        keyIdxBefore frames n

/-- `GetKeyNearestKeyFrameIndexForTarget` over the modelled index table:
out-of-range indices have no index-table entry (NULL `AVIndexEntry`) and
yield INVALID_INDEX_ENTRY; otherwise the nearest preceding key-frame index
is returned. -/
def nearestKeyFrameIndex (frames : List VPacket) (idx : Int) : Int :=
  if 0 ≤ idx ∧ idx < (frames.length : Int) then
    keyIdxBefore frames idx.toNat
  else
    INVALID_INDEX_ENTRY

/-- `FFmpegDemuxer::Demux`: the packet under the cursor, advancing it, or
`none` at end of stream (the caller then zeroes its packet data). -/
def DemuxNext (d : DemuxState) : Option VPacket × DemuxState :=
  match d.frames.get? d.cursor with
  | some p => (some p, { d with cursor := d.cursor + 1 })
  | none => (none, d)

/-- `FFmpegDemuxer::Seek(frameIdx)`: av_seek_frame BACKWARD to the PTS of
frame `frameIdx` repositions demuxing at the nearest key frame at or before
it.  SeekUtils only calls this with in-range indices. -/
def DemuxSeekTo (d : DemuxState) (idx : Nat) : DemuxState :=
  { d with cursor := (keyIdxBefore d.frames idx).toNat }

/-- Decoder collaborator state: the queue of decoded frames not yet fetched
by `GetFrame`/`GetLockedFrame`, and a counter handing out distinct buffer
handles. -/
structure DecState where
  outQ : List DFrame
  nextHandle : Nat
deriving Repr, DecidableEq

/-- `NvDecoder::Decode`: a non-empty packet decodes to exactly one frame
with the packet's timestamp; an empty (flush / discontinuity / EOS) packet
produces no frame in this reorder-free instance.  Returns the number of
frames produced. -/
def DecDecode (d : DecState) (pkt : Option VPacket) : Nat × DecState :=
  match pkt with
  | some p =>
      (1, { outQ := d.outQ ++ [{ data := d.nextHandle, timestamp := p.pts }]
            nextHandle := d.nextHandle + 1 })
  | none => (0, d)

/-- `GetFrame(bLockFrame)` of SeekUtils: fetches the next decoded frame from
the decoder's output queue. -/
def GetFrameD (d : DecState) : DFrame × DecState :=
  match d.outQ with
  | [] => ({ data := 0, timestamp := 0 }, d)
  | f :: rest => (f, { d with outQ := rest })

/-- The state GetFramesByIdxList operates on: demuxer, decoder, SeekUtils
fields. -/
structure SeekWorld where
  dmx : DemuxState
  dec : DecState
  su : SeekState
deriving Repr, DecidableEq

/-- The key-frame lookup `ShouldSeek` uses, over the world's stream. -/
def worldKf (w : SeekWorld) : Int → Int :=
  fun idx => nearestKeyFrameIndex w.dmx.frames idx

/-- The pending-frame relocation at the end of the target-found branch:
`for (j = 0; j < n; j++) mPendingFrames.push_back(GetFrame(true));`. -/
def movePending : SeekWorld → Nat → SeekWorld
  | w, 0 => w
  | w, n + 1 =>
      let r := GetFrameD w.dec
      movePending
        { w with dec := r.2
                 su := { w.su with mPendingFrames := w.su.mPendingFrames ++ [r.1] } }
        n

/-- The inner `for (i = 0; i < numDecodedFrames; i++)` loop of
GetFramesByIdxList: fetch each decoded frame; drop it (and decrement
`mFramesDecodedTillNow`) when its timestamp was already seen after the seek
or precedes the key-frame target PTS; when `targetValue` reaches 0 the frame
is the target and the remaining frames of this decode call go to
`mPendingFrames`; otherwise count `targetValue` down.
Arguments: world, total frames this decode call, frames remaining, the
running `mCurrentCountOfDecodedFrames`, `targetValue`.
Returns (world, targetValue, bTargetFrameFound). -/
def frameLoop (numDecodedFrames : Nat) :
    SeekWorld → Nat → Nat → Int → SeekWorld × Int × Bool
  | w, 0, _, targetValue => (w, targetValue, false)
  | w, r + 1, currentCount, targetValue =>
      let fr := GetFrameD w.dec
      let w := { w with dec := fr.2 }
      let currentCount := currentCount + 1
      if w.su.mPreviouslyDecodedFramesPTS.contains fr.1.timestamp then
        frameLoop numDecodedFrames
          { w with su :=
              { w.su with mFramesDecodedTillNow := w.su.mFramesDecodedTillNow - 1 } }
          r currentCount targetValue
      else
        let w := { w with su :=
            { w.su with mPreviouslyDecodedFramesPTS :=
                w.su.mPreviouslyDecodedFramesPTS ++ [fr.1.timestamp] } }
        if fr.1.timestamp < w.su.mTargetFramePTS then
          frameLoop numDecodedFrames
            { w with su :=
                { w.su with mFramesDecodedTillNow := w.su.mFramesDecodedTillNow - 1 } }
            r currentCount targetValue
        else if targetValue = 0 then
          let w := { w with su :=
              { w.su with mTargetFrames := w.su.mTargetFrames ++ [fr.1] } }
          let w :=
            if currentCount ≠ 0 then
              movePending w (numDecodedFrames - currentCount)
            else w
          (w, targetValue, true)
        else
          frameLoop numDecodedFrames w r currentCount (targetValue - 1)

/-- One iteration of the demux/decode loop, up to but not including the
per-frame loop: demux a packet (zeroed on failure, `isKeyFrame` keeping its
previous value), latch `mTargetFramePTS` on a key frame during a
discontinuity, flush the decoder and clear pending frames when the
discontinuity flag is set, mark EOS and decode the packet, and add the
frame count to `mFramesDecodedTillNow`.
Returns (world, numDecodedFrames, isKeyFrame, reached end of stream). -/
def demuxStep (w : SeekWorld) (lastKey : Bool) : SeekWorld × Nat × Bool × Bool :=
  let dr := DemuxNext w.dmx
  let w := { w with dmx := dr.2 }
  let isKeyFrame := match dr.1 with
    | some p => p.isKey
    | none => lastKey
  let pts : Int := match dr.1 with
    | some p => p.pts
    | none => 0
  let w :=
    if (isKeyFrame && w.su.mbDiscontinuityFlag) = true then
      { w with su := { w.su with mTargetFramePTS := pts } }
    else w
  let w :=
    if w.su.mbDiscontinuityFlag = true then
      let fl := DecDecode w.dec none
      let dec := (GetFrameD fl.2).2
      { w with dec := dec
               su := { w.su with mPendingFrames := [], mbDiscontinuityFlag := false } }
    else w
  let w :=
    if dr.1.isNone then
      { w with su := { w.su with mbEOSreached := true } }
    else w
  let dd := DecDecode w.dec dr.1
  let w := { w with dec := dd.2 }
  let w := { w with su :=
      { w.su with mFramesDecodedTillNow := w.su.mFramesDecodedTillNow + dd.1 } }
  (w, dd.1, isKeyFrame, dr.1.isNone)

/-- The `while (!bTargetFrameFound)` loop of GetFramesByIdxList: demux and
decode until the target frame is found or the demuxer is exhausted.  `fuel`
bounds the iterations (the demuxer cursor only advances, so
`frames.length + 1` iterations always suffice).  Returns (world,
bTargetFrameFound). -/
def demuxLoop : Nat → SeekWorld → Bool → Int → SeekWorld × Bool
  | 0, w, _, _ => (w, false)
  | fuel + 1, w, lastKey, targetValue =>
      let st := demuxStep w lastKey
      let fl := frameLoop st.2.1 st.1 st.2.1 0 targetValue
      if fl.2.2 then (fl.1, true)
      else if st.2.2.2 then (fl.1, false)
      else demuxLoop fuel fl.1 st.2.2.1 fl.2.1

/-- The body of the `for (const uint32_t& currentTargetIndex : indices)`
loop of `SeekUtils::GetFramesByIdxList` for one index:
  * skip the index when ShouldSeek reports INVALID_INDEX_ENTRY;
  * on a seek: reposition the demuxer, set `mFramesDecodedTillNow` to the
    key-frame index, raise the discontinuity flag, clear pending frames and
    seen timestamps; otherwise clear the discontinuity flag;
  * when `targetValue < 0`, try the pending queue: the C++ guard is
    `actual_idx <= mPendingFrames.size()` comparing a signed `int` against
    `size_t`, so `actual_idx` is converted to an unsigned 64-bit value — a
    negative `actual_idx` becomes huge and fails the guard;
  * when `targetValue ≥ 0`, clear the pending queue;
  * unless already served, run the demux/decode loop;
  * record `mPreviousTargetIndex` only on success. -/
def processIndex (w : SeekWorld) (currentTargetIndex : Nat) : SeekWorld :=
  let result := ShouldSeek (worldKf w) w.su.mPreviousTargetIndex (currentTargetIndex : Int)
  if result.2 = INVALID_INDEX_ENTRY then
    w
  else
    let w :=
      if result.1 then
        let timestamp := worldKf w (currentTargetIndex : Int)
        { w with dmx := DemuxSeekTo w.dmx currentTargetIndex
                 su := { w.su with
                    mFramesDecodedTillNow := timestamp
                    mbDiscontinuityFlag := true
                    mPendingFrames := []
                    mPreviouslyDecodedFramesPTS := [] } }
      else
        { w with su := { w.su with mbDiscontinuityFlag := false } }
    let targetValue : Int := (currentTargetIndex : Int) - w.su.mFramesDecodedTillNow
    let served :=
      if targetValue < 0 then
        let actualIdx : Int := targetValue + (w.su.mPendingFrames.length : Int)
        if (actualIdx % (2 : Int) ^ 64).toNat ≤ w.su.mPendingFrames.length then
          let pendingFrame :=
            w.su.mPendingFrames.getD (actualIdx % (2 : Int) ^ 64).toNat default
          (some { w with su :=
              { w.su with mTargetFrames := w.su.mTargetFrames ++ [pendingFrame] } })
        else
          none
      else
        none
    match served with
    | some w' =>
        { w' with su := { w'.su with mPreviousTargetIndex := (currentTargetIndex : Int) } }
    | none =>
        let w :=
          if targetValue < 0 then w
          else { w with su := { w.su with mPendingFrames := [] } }
        let r := demuxLoop (w.dmx.frames.length + 1) w false targetValue
        if r.2 then
          { r.1 with su := { r.1.su with mPreviousTargetIndex := (currentTargetIndex : Int) } }
        else
          r.1

/-- `SeekUtils::GetFramesByIdxList(indices)`: unlock and clear the previous
target frames, process each index in order, return the collected target
frames (frame unlocking has no sequential content in this decoder
instance). -/
def GetFramesByIdxList (w : SeekWorld) (indices : List Nat) :
    List DFrame × SeekWorld :=
  let w := { w with su := { w.su with mTargetFrames := [] } }
  let w := indices.foldl processIndex w
  (w.su.mTargetFrames, w)

/-! ### ClearState (SeekUtils.cpp lines 53–83)

`ClearState` drives the demuxer and decoder; those interactions are recorded
as an event trace.  The number of frames the decoder reports for the
synthetic empty packet is the collaborator's business and enters as the
parameter `emptyDecodeFrameCount`. -/

inductive ClearEvent where
  | unlockFrame (data : Nat)
  | demuxSeek (idx : Nat)
  | decodeEmptyPacket
  | getFrame (locked : Bool)
deriving Repr, DecidableEq

/-- `SeekUtils::UnlockFrames`: unlocks each frame of `mTargetFrames` (and
only those). -/
def UnlockFramesEvents (s : SeekState) : List ClearEvent :=
  s.mTargetFrames.map (fun f => ClearEvent.unlockFrame f.data)

/-- `SeekUtils::ClearState(bForceEOS)`: unlock the target frames; clear
`mTargetFrames`, `mPendingFrames`, `mPreviouslyDecodedFramesPTS`; reset
`mPreviousTargetIndex` to −1, `mFramesDecodedTillNow`, `mFrameSizeInBytes`,
`mTargetFramePTS`, `mbDiscontinuityFlag`, `bSeekToIndexSet`; seek the
demuxer to 0; and when EOS had been reached or `bForceEOS` holds, decode one
synthetic empty packet and drain each frame it reports, then clear
`mbEOSreached`.  (The session warm-up calls on the decoder carry no
SeekState content.) -/
def ClearState (s : SeekState) (emptyDecodeFrameCount : Nat) (bForceEOS : Bool) :
    SeekState × List ClearEvent :=
  let evs := UnlockFramesEvents s ++ [ClearEvent.demuxSeek 0]
  let s' := { s with
    mTargetFrames := []
    mPendingFrames := []
    mPreviouslyDecodedFramesPTS := []
    mPreviousTargetIndex := -1
    mFramesDecodedTillNow := 0
    mFrameSizeInBytes := 0
    mTargetFramePTS := 0
    mbDiscontinuityFlag := false
    bSeekToIndexSet := false }
  if (s.mbEOSreached || bForceEOS) = true then
    ({ s' with mbEOSreached := false },
      evs ++ ClearEvent.decodeEmptyPacket ::
        List.replicate emptyDecodeFrameCount (ClearEvent.getFrame false))
  else
    (s', evs)

/-! ## RunDecoder (ThreadedDecoder.cpp lines 61–95)

The streaming decode loop, as an event trace.  The demuxer's successive
results are `packets`, a list of (byte count, decoded frame ids); once the
list is exhausted, `Demux` yields zero bytes and decoding that final empty
packet yields `eofFrames`.  The stop flag is read through `stop`, indexed by
the number of `load()` calls so far — the C++ checks it before pushing each
frame and in the loop condition (short-circuited away when the byte count is
already zero). -/

inductive RunEvent where
  | push (frameId : Nat)
  | pushDone
  | decodeFlush
deriving Repr, DecidableEq

/-- The inner `for (i = 0; (i < nFrameReturned) && (!decodeStopFlag.load());
i++)` loop: each iteration first loads the stop flag, then locks and pushes
one frame.  Returns the events and the updated load counter. -/
def pushFrames (stop : Nat → Bool) : Nat → List Nat → List RunEvent × Nat
  | k, [] => ([], k)
  | k, f :: rest =>
      if stop k then ([], k + 1)
      else
        let r := pushFrames stop (k + 1) rest
        (RunEvent.push f :: r.1, r.2)

/-- The `do { Demux; Decode; push frames } while (nVideoBytes &&
!decodeStopFlag.load())` loop.  Returns (events, load counter, the final
value of `nVideoBytes`). -/
def runDecoderLoop (stop : Nat → Bool) : Nat → List (Nat × List Nat) → List Nat →
    List RunEvent × Nat × Nat
  | k, [], eofFrames =>
      let r := pushFrames stop k eofFrames
      (r.1, r.2, 0)
  | k, (nb, frames) :: rest, eofFrames =>
      let r := pushFrames stop k frames
      if nb = 0 then (r.1, r.2, 0)
      else if stop r.2 then (r.1, r.2 + 1, nb)
      else
        let r2 := runDecoderLoop stop (r.2 + 1) rest eofFrames
        (r.1 ++ r2.1, r2.2.1, r2.2.2)

/-- `RunDecoder` (the StreamingDecodeLoop body): run the demux/decode/push
loop, then `PushDone()`, then — only when the final demux call had returned
a nonzero byte count (`if (nVideoBytes != 0)`) — send one synthetic empty
packet through the decoder, whose output is not pushed. -/
def RunDecoder (stop : Nat → Bool) (packets : List (Nat × List Nat))
    (eofFrames : List Nat) : List RunEvent :=
  let r := runDecoderLoop stop 0 packets eofFrames
  r.1 ++ [RunEvent.pushDone] ++
    (if r.2.2 ≠ 0 then [RunEvent.decodeFlush] else [])

/-! ## Concrete instances used by witnesses and counterexamples -/

/-- A four-frame stream: a key frame followed by three delta frames,
pts = frame index. -/
def video1 : List VPacket :=
  [{ pts := 0, isKey := true }, { pts := 1, isKey := false },
   { pts := 2, isKey := false }, { pts := 3, isKey := false }]

/-- A fresh session over a stream: demuxer at 0, empty decoder queue,
constructor-state SeekUtils. -/
def initWorld (frames : List VPacket) : SeekWorld :=
  { dmx := { frames := frames, cursor := 0 }
    dec := { outQ := [], nextHandle := 0 }
    su := initSeekState }

/-- The world after resolving index 1 of `video1` once. -/
def c8World : SeekWorld := (GetFramesByIdxList (initWorld video1) [1]).2

/-- Capacity-4 channel after pushing 2 items and `PushDone()` (claim C2's
scenario). -/
def c2Filled : SPSCBuffer Nat :=
  runChan (mkSPSC Nat 4) [ChanOp.push 1, ChanOp.push 2, ChanOp.pushDone]

/-- The channel state after `Pop(4)` on `c2Filled`. -/
def c2Drained : SPSCBuffer Nat :=
  chanStep c2Filled (ChanOp.pop 4)

/-- An empty, drained capacity-3 channel (for the Pop(0) witness). -/
def c10empty : SPSCBuffer Nat :=
  PushDone (mkSPSC Nat 3)

/-- A SeekUtils state with the backward-seek direction flag set and one
retained pending frame (handle 7), as left behind by earlier seeking. -/
def c5s0 : SeekState :=
  { initSeekState with
      bIsSeekDirectionBackwards := true
      mPendingFrames := [{ data := 7, timestamp := 5 }] }

/-! # Theorems -/

theorem popLoop_length [Inhabited α] (buf : List α) (cap : Nat) :
    ∀ (n tail : Nat), ((popLoop buf cap tail n).1).length = n := by
  intro n
  induction n with
  | zero => intro tail; rfl
  | succ n ih => intro tail; simp [popLoop, ih]

theorem popLoop_tail_lt [Inhabited α] (buf : List α) (cap : Nat) (hc : 0 < cap) :
    ∀ (n tail : Nat), tail < cap → (popLoop buf cap tail n).2 < cap := by
  intro n
  induction n with
  | zero => intro tail h; exact h
  | succ n ih => intro tail _; exact ih ((tail + 1) % cap) (Nat.mod_lt _ hc)

theorem chanStep_inv [Inhabited α] (s : SPSCBuffer α) (op : ChanOp α)
    (h : ChanInv s) : ChanInv (chanStep s op) := by
  obtain ⟨hlen, hcnt, hht⟩ := h
  cases op with
  | push a =>
      by_cases hlt : s.mCount < s.mCapacity
      · simp only [chanStep, PushEntry, if_pos hlt]
        exact ⟨by simpa using hlen, hlt,
          fun hc => ⟨Nat.mod_lt _ hc, (hht hc).2⟩⟩
      · simp only [chanStep, PushEntry, if_neg hlt]
        exact ⟨hlen, hcnt, hht⟩
  | pushDone => exact ⟨hlen, hcnt, hht⟩
  | pop b =>
      by_cases hbc : s.mCapacity < b
      · simp only [chanStep, PopEntries, if_pos hbc]
        exact ⟨hlen, hcnt, hht⟩
      · by_cases hblk : s.mCount < (if b = 0 then s.mCount else b) ∧ s.mDrain = false
        · simp only [chanStep, PopEntries, if_neg hbc, if_pos hblk]
          exact ⟨hlen, hcnt, hht⟩
        · simp only [chanStep, PopEntries, if_neg hbc, if_neg hblk]
          refine ⟨hlen, Nat.le_trans (Nat.sub_le _ _) hcnt,
            fun hc => ⟨(hht hc).1, popLoop_tail_lt _ _ hc _ _ (hht hc).2⟩⟩
  | clear =>
      refine ⟨hlen, Nat.zero_le _, fun hc => ⟨hc, hc⟩⟩

theorem chanStep_drain [Inhabited α] (s : SPSCBuffer α) (op : ChanOp α)
    (hop : op ≠ ChanOp.clear) (hd : s.mDrain = true) :
    (chanStep s op).mDrain = true := by
  cases op with
  | push a =>
      by_cases hlt : s.mCount < s.mCapacity
      · simp only [chanStep, PushEntry, if_pos hlt]; exact hd
      · simp only [chanStep, PushEntry, if_neg hlt]; exact hd
  | pushDone => rfl
  | pop b =>
      by_cases hbc : s.mCapacity < b
      · simp only [chanStep, PopEntries, if_pos hbc]; exact hd
      · by_cases hblk : s.mCount < (if b = 0 then s.mCount else b) ∧ s.mDrain = false
        · simp only [chanStep, PopEntries, if_neg hbc, if_pos hblk]; exact hd
        · simp only [chanStep, PopEntries, if_neg hbc, if_neg hblk]; exact hd
  | clear => exact absurd rfl hop

theorem runChan_cons [Inhabited α] (s : SPSCBuffer α) (op : ChanOp α)
    (ops : List (ChanOp α)) :
    runChan s (op :: ops) = runChan (chanStep s op) ops := rfl

theorem runChan_inv [Inhabited α] (ops : List (ChanOp α)) :
    ∀ (s : SPSCBuffer α), ChanInv s → ChanInv (runChan s ops) := by
  induction ops with
  | nil => intro s h; exact h
  | cons op rest ih =>
      intro s h
      rw [runChan_cons]
      exact ih _ (chanStep_inv s op h)

theorem runChan_drain [Inhabited α] (ops : List (ChanOp α)) :
    ∀ (s : SPSCBuffer α), s.mDrain = true →
      (∀ op ∈ ops, op ≠ ChanOp.clear) → (runChan s ops).mDrain = true := by
  induction ops with
  | nil => intro s hd _; exact hd
  | cons op rest ih =>
      intro s hd hops
      rw [runChan_cons]
      exact ih _ (chanStep_drain s op (hops op (by simp)) hd)
        (fun o ho => hops o (by simp [ho]))

/-- C1: every sequence of Push, PushDone, Pop and Clear operations on the
SPSCBuffer preserves the state invariant (`0 ≤ mCount ≤ mCapacity`, the ring
vector keeps its length, head/tail stay reduced modulo the capacity), and
the drain flag, once set by PushDone, survives every Push/PushDone/Pop — it
is reset to false only by Clear. -/
theorem spsc_invariant_and_drain (α : Type) [Inhabited α] (s : SPSCBuffer α)
    (ops : List (ChanOp α)) (h : ChanInv s) :
    ChanInv (runChan s ops) ∧
      (s.mDrain = true → (∀ op ∈ ops, op ≠ ChanOp.clear) →
        (runChan s ops).mDrain = true) ∧
      (chanStep s ChanOp.pushDone).mDrain = true ∧
      (chanStep s ChanOp.clear).mDrain = false :=
  ⟨runChan_inv ops s h, fun hd hops => runChan_drain ops s hd hops, rfl, rfl⟩

/-- Witness for C1: a concrete drained channel run through pushes and pops
keeps the invariant and the drain flag. -/
theorem spsc_invariant_and_drain_witness :
    ChanInv (runChan (PushDone (mkSPSC Nat 2)) [ChanOp.push 5, ChanOp.pop 1]) ∧
      (runChan (PushDone (mkSPSC Nat 2)) [ChanOp.push 5, ChanOp.pop 1]).mDrain = true := by
  have h := spsc_invariant_and_drain Nat (PushDone (mkSPSC Nat 2))
    [ChanOp.push 5, ChanOp.pop 1] (by decide)
  exact ⟨h.1, h.2.1 (by decide) (by decide)⟩

/-- C2: on a channel whose drain flag is set and which buffers fewer than
`batchSize` items (with `batchSize` legal), `PopEntries` does not wait: it
returns exactly the currently buffered items, leaving the count at zero.
Concretely, with capacity 4, after pushing 2 items and `PushDone()`,
`Pop(4)` returns exactly the 2 items, and a subsequent Pop of any legal
size returns 0 items. -/
theorem spsc_drain_short_batch (α : Type) [Inhabited α] :
    (∀ (s : SPSCBuffer α) (b : Nat), s.mDrain = true → s.mCount < b →
        b ≤ s.mCapacity →
        PopEntries s b =
          PopResult.ok (bufContents s)
            { s with mTail := (popLoop s.mBuffer s.mCapacity s.mTail s.mCount).2,
                     mCount := 0 } ∧
          (bufContents s).length = s.mCount) ∧
      (PopEntries c2Filled 4 = PopResult.ok [1, 2] c2Drained ∧
        c2Drained.mCount = 0) ∧
      (∀ k, k ≤ 4 → PopEntries c2Drained k = PopResult.ok [] c2Drained) := by
  refine ⟨?_, by decide, by decide⟩
  intro s b hd hcb hbc
  have hb0 : b ≠ 0 := by omega
  have hnb : ¬ s.mCapacity < b := by omega
  refine ⟨?_, popLoop_length _ _ _ _⟩
  simp only [PopEntries, if_neg hnb, if_neg hb0, ite_false, hd]
  rw [if_neg (by simp [hd]), if_pos (by simp [hd, hcb])]
  simp [bufContents, Nat.sub_self]

/-- Witness for C2: the general short-batch equation applied to the
concrete capacity-4 scenario, plus the follow-up `Pop(1)`. -/
theorem spsc_drain_short_batch_witness :
    PopEntries c2Filled 4 =
        PopResult.ok (bufContents c2Filled)
          { c2Filled with
              mTail := (popLoop c2Filled.mBuffer c2Filled.mCapacity
                c2Filled.mTail c2Filled.mCount).2,
              mCount := 0 } ∧
      PopEntries c2Drained 1 = PopResult.ok [] c2Drained := by
  have h := spsc_drain_short_batch Nat
  exact ⟨(h.1 c2Filled 4 (by decide) (by decide) (by decide)).1,
    h.2.2 1 (by decide)⟩

/-- C7: popping with a batch size exceeding the channel capacity raises the
`std::runtime_error` to the caller — the batch is not clamped — and the
channel state (head, tail, count, drain flag, buffer contents) is the state
at the throw, unchanged. -/
theorem spsc_pop_oversize_error (α : Type) [Inhabited α] (s : SPSCBuffer α)
    (b : Nat) (h : s.mCapacity < b) :
    PopEntries s b = PopResult.err (popErrMsg b s.mCapacity) s ∧
      chanStep s (ChanOp.pop b) = s := by
  constructor
  · simp only [PopEntries, if_pos h]
  · simp only [chanStep, PopEntries, if_pos h]

/-- Witness for C7: `Pop(3)` on a capacity-2 channel throws with the state
unchanged. -/
theorem spsc_pop_oversize_error_witness :
    PopEntries (mkSPSC Nat 2) 3 =
        PopResult.err (popErrMsg 3 2) (mkSPSC Nat 2) ∧
      chanStep (mkSPSC Nat 2) (ChanOp.pop 3) = mkSPSC Nat 2 :=
  spsc_pop_oversize_error Nat (mkSPSC Nat 2) 3 (by decide)

/-- C10: `Pop(0)` never waits: the effective batch size becomes the count at
entry, so it pops exactly the items buffered at entry (the empty vector on
an empty channel, drained or not) and leaves the count at zero. -/
theorem spsc_pop_zero (α : Type) [Inhabited α] (s : SPSCBuffer α) :
    PopEntries s 0 =
        PopResult.ok (bufContents s)
          { s with mTail := (popLoop s.mBuffer s.mCapacity s.mTail s.mCount).2,
                   mCount := 0 } ∧
      (bufContents s).length = s.mCount ∧
      (s.mCount = 0 → bufContents s = []) := by
  refine ⟨?_, popLoop_length _ _ _ _, fun hc => by simp [bufContents, hc, popLoop]⟩
  simp only [PopEntries, if_neg (Nat.not_lt_zero _), if_pos rfl]
  rw [if_neg (by simp), if_neg (by simp)]
  simp [bufContents, Nat.sub_self]

/-- Witness for C10: `Pop(0)` on an empty drained channel returns the empty
batch with the state unchanged. -/
theorem spsc_pop_zero_witness :
    PopEntries c10empty 0 = PopResult.ok ([] : List Nat) c10empty ∧
      bufContents c10empty = ([] : List Nat) := by
  have h := spsc_pop_zero Nat c10empty
  have he : bufContents c10empty = ([] : List Nat) := h.2.2 (by decide)
  have h1 := h.1
  rw [he] at h1
  exact ⟨by rw [h1]; decide, he⟩

/-- C3: the DecoderCache LRU policy.  `PushDecoder` on an existing key
updates the value and promotes the cell to most-recently-used without
evicting; `PushDecoder` of a new key at capacity evicts and returns the
least-recently-used entry and inserts the new pair at the front;
`GetDecoder` promotes a hit to most-recently-used.  With capacity 2, after
insert A, insert B, `Get(A)`, insert C, the evicted entry is B. -/
theorem decoderCache_lru_policy (κ ν : Type) [DecidableEq κ] :
    (∀ (c : DecoderCache κ ν) (key : κ) (v : ν) (p : κ × ν),
        cacheFind c.mCacheItems key = some p →
          (PushDecoder c key v).1 = none ∧
          (PushDecoder c key v).2.mCacheItems.head? = some (p.1, v) ∧
          (PushDecoder c key v).2.mCacheItems.length = c.mCacheItems.length) ∧
      (∀ (c : DecoderCache κ ν) (key : κ) (v : ν) (last : κ × ν),
        cacheFind c.mCacheItems key = none →
        c.mCacheItems.length = c.mCapacity →
        c.mCacheItems.getLast? = some last →
          (PushDecoder c key v).1 = some last.2 ∧
          (PushDecoder c key v).2.mCacheItems =
            (key, v) :: c.mCacheItems.dropLast) ∧
      (∀ (c : DecoderCache κ ν) (key : κ) (p : κ × ν),
        cacheFind c.mCacheItems key = some p →
          (GetDecoder c key).1 = some p.2 ∧
          (GetDecoder c key).2.mCacheItems.head? = some p) ∧
      ((PushDecoder lruC3 3 30).1 = some 20 ∧
        (PushDecoder lruC3 3 30).2.mCacheItems = [(3, 30), (1, 10)]) := by
  refine ⟨?_, ?_, ?_, by decide⟩
  · intro c key v p hp
    have hp' : List.find? (fun q => q.1 == key) c.mCacheItems = some p := hp
    have hmem : p ∈ c.mCacheItems := List.mem_of_find?_eq_some hp'
    have hpp := List.find?_some hp'
    have hlen := List.length_eraseP_add_one (p := fun q => q.1 == key) hmem hpp
    refine ⟨by simp [PushDecoder, hp], by simp [PushDecoder, hp], ?_⟩
    have hitems : (PushDecoder c key v).2.mCacheItems =
        (p.1, v) :: c.mCacheItems.eraseP (fun q => q.1 == key) := by
      simp [PushDecoder, hp]
    rw [hitems, List.length_cons]
    omega
  · intro c key v last hmiss hfull hlast
    refine ⟨?_, ?_⟩ <;> simp [PushDecoder, hmiss, hfull, hlast]
  · intro c key p hp
    refine ⟨?_, ?_⟩ <;> simp [GetDecoder, hp]

/-- Witness for C3: the three general clauses applied in the concrete
capacity-2 scenario (update of an existing key, eviction at capacity,
promotion on Get). -/
theorem decoderCache_lru_policy_witness :
    (PushDecoder lruC2 2 21).1 = none ∧
      (PushDecoder lruC2 2 21).2.mCacheItems.length = 2 ∧
      (PushDecoder lruC3 3 30).1 = some 20 ∧
      (GetDecoder lruC2 1).1 = some 10 := by
  have h := decoderCache_lru_policy Nat Nat
  have h1 := h.1 lruC2 2 21 (2, 20) (by decide)
  have h2 := h.2.1 lruC3 3 30 (2, 20) (by decide) (by decide) (by decide)
  have h3 := h.2.2.1 lruC2 1 (1, 10) (by decide)
  exact ⟨h1.1, by rw [h1.2.2]; decide, h2.1, h3.1⟩

/-- C4: the ShouldSeek decision rule.  The seek decision is true exactly
when there is no previous target, or when both key-frame lookups succeed,
the key-frame indices differ, and the new key-frame index is at least 4
frames ahead of the previous target.  The result carries
INVALID_INDEX_ENTRY exactly when a performed key-frame lookup failed, and
`GetFramesByIdxList` then skips the index, leaving the state untouched,
instead of aborting the batch. -/
theorem shouldSeek_decision_rule :
    (∀ (kf : Int → Int) (p c : Int),
        ((ShouldSeek kf p c).1 = true ↔
          (p = -1 ∨ (kf p ≠ INVALID_INDEX_ENTRY ∧ kf c ≠ INVALID_INDEX_ENTRY ∧
            kf p ≠ kf c ∧ 4 ≤ kf c - p))) ∧
        ((ShouldSeek kf p c).2 = INVALID_INDEX_ENTRY ↔
          (kf c = INVALID_INDEX_ENTRY ∨
            (p ≠ -1 ∧ kf p = INVALID_INDEX_ENTRY)))) ∧
      (∀ (w : SeekWorld) (i : Nat),
        (ShouldSeek (worldKf w) w.su.mPreviousTargetIndex (i : Int)).2 =
            INVALID_INDEX_ENTRY →
          processIndex w i = w) := by
  constructor
  · intro kf p c
    simp only [ShouldSeek]
    split_ifs with h1 h2 h3 h4 <;> constructor <;>
      simp_all [INVALID_INDEX_ENTRY] <;> omega
  · intro w i h
    unfold processIndex
    rw [if_pos h]

/-- Witness for C4: index 10 of a 4-frame stream has no index-table entry;
its ShouldSeek result carries INVALID_INDEX_ENTRY (while still deciding
"seek" since there is no previous target) and resolution skips it without
touching the state. -/
theorem shouldSeek_decision_rule_witness :
    processIndex (initWorld video1) 10 = initWorld video1 ∧
      (ShouldSeek (worldKf (initWorld video1)) (-1) (10 : Int)).1 = true := by
  constructor
  · exact shouldSeek_decision_rule.2 (initWorld video1) 10 (by decide)
  · exact (shouldSeek_decision_rule.1 (worldKf (initWorld video1)) (-1)
      (10 : Int)).1.mpr (Or.inl rfl)

/-- C9: `SeekUtils::setEOS(bool newVal)` sets `mbEOSreached` to true
whatever the argument — in particular `setEOS(false)` also sets it — so the
operation can never clear the flag. -/
theorem setEOS_always_sets (s : SeekState) (newVal : Bool) :
    (setEOS s newVal).mbEOSreached = true ∧
      (setEOS s false).mbEOSreached = true :=
  ⟨rfl, rfl⟩

/-- C5 counterexample: from a state with the backward-seek direction flag
set and one retained pending frame (handle 7), `ClearState(false)` leaves
`bIsSeekDirectionBackwards` set (the claim says every SeekState field is
reset) and emits no unlock for the pending frame (the claim says the
pending-frame queue is unlocked too). -/
theorem clearState_counterexample :
    (ClearState c5s0 0 false).1.bIsSeekDirectionBackwards = true ∧
      ClearEvent.unlockFrame 7 ∉ (ClearState c5s0 0 false).2 := by
  decide

/-- C5 as amended: `ClearState(forceEOS)` unlocks exactly the target frames
(the pending queue is discarded without unlocking), clears both frame
queues and the seen-PTS set, resets `mPreviousTargetIndex` to −1,
`mFramesDecodedTillNow`, `mTargetFramePTS`, `mbDiscontinuityFlag` and
`bSeekToIndexSet`, leaves `mbEOSreached` false, re-seeks the demuxer to 0,
and — exactly when EOS had been reached or forceEOS holds — pushes one
synthetic empty packet through the decoder, draining every frame it
reports.  `bIsSeekDirectionBackwards` is not reset: it keeps its previous
value. -/
theorem clearState_resets (s : SeekState) (n : Nat) (force : Bool) :
    (ClearState s n force).1.mTargetFrames = [] ∧
      (ClearState s n force).1.mPendingFrames = [] ∧
      (ClearState s n force).1.mPreviouslyDecodedFramesPTS = [] ∧
      (ClearState s n force).1.mPreviousTargetIndex = -1 ∧
      (ClearState s n force).1.mFramesDecodedTillNow = 0 ∧
      (ClearState s n force).1.mFrameSizeInBytes = 0 ∧
      (ClearState s n force).1.mTargetFramePTS = 0 ∧
      (ClearState s n force).1.mbDiscontinuityFlag = false ∧
      (ClearState s n force).1.bSeekToIndexSet = false ∧
      (ClearState s n force).1.mbEOSreached = false ∧
      (ClearState s n force).1.bIsSeekDirectionBackwards =
        s.bIsSeekDirectionBackwards ∧
      (ClearState s n force).2 =
        UnlockFramesEvents s ++ [ClearEvent.demuxSeek 0] ++
          (if (s.mbEOSreached || force) = true then
            ClearEvent.decodeEmptyPacket ::
              List.replicate n (ClearEvent.getFrame false)
          else []) := by
  by_cases h : (s.mbEOSreached || force) = true
  · simp [ClearState, h]
  · have hs : s.mbEOSreached = false := by
      cases hb : s.mbEOSreached <;> simp_all
    have hf : force = false := by
      cases hb : force <;> simp_all
    simp [ClearState, hs, hf]

theorem pushFrames_only_push (stop : Nat → Bool) :
    ∀ (fs : List Nat) (k : Nat), ∃ ids : List Nat,
      (pushFrames stop k fs).1 = ids.map RunEvent.push := by
  intro fs
  induction fs with
  | nil => intro k; exact ⟨[], rfl⟩
  | cons f rest ih =>
      intro k
      by_cases h : stop k
      · exact ⟨[], by simp [pushFrames, h]⟩
      · obtain ⟨ids, hids⟩ := ih (k + 1)
        exact ⟨f :: ids, by simp [pushFrames, h, hids]⟩

theorem runDecoderLoop_only_push (stop : Nat → Bool) :
    ∀ (ps : List (Nat × List Nat)) (k : Nat) (ef : List Nat),
      ∃ ids : List Nat,
        (runDecoderLoop stop k ps ef).1 = ids.map RunEvent.push := by
  intro ps
  induction ps with
  | nil =>
      intro k ef
      obtain ⟨ids, hids⟩ := pushFrames_only_push stop ef k
      exact ⟨ids, by simp [runDecoderLoop, hids]⟩
  | cons pkt rest ih =>
      intro k ef
      obtain ⟨ids, hids⟩ := pushFrames_only_push stop pkt.2 k
      by_cases h0 : pkt.1 = 0
      · exact ⟨ids, by simp [runDecoderLoop, h0, hids]⟩
      · by_cases hs : stop (pushFrames stop k pkt.2).2
        · exact ⟨ids, by simp [runDecoderLoop, h0, hs, hids]⟩
        · obtain ⟨ids2, hids2⟩ := ih ((pushFrames stop k pkt.2).2 + 1) ef
          exact ⟨ids ++ ids2, by simp [runDecoderLoop, h0, hs, hids, hids2]⟩

/-- C6 counterexample: a one-packet stream (5 bytes, one frame with id 11)
decoded to natural end of stream with the stop flag never raised.  A packet
was consumed, yet no synthetic empty packet follows `PushDone()` — the
post-loop flush is guarded by `if (nVideoBytes != 0)`, and the final demux
returned 0 bytes. -/
theorem runDecoder_counterexample :
    RunDecoder (fun _ => false) [(5, [11])] [] =
        [RunEvent.push 11, RunEvent.pushDone] ∧
      RunEvent.decodeFlush ∉ RunDecoder (fun _ => false) [(5, [11])] [] := by
  decide

/-- C6 as amended: on every run of the StreamingDecodeLoop body, the event
trace is some pushes, then exactly one `PushDone()`, then — exactly when the
final demux call returned a nonzero byte count, i.e. the loop exited via the
stop flag rather than by exhausting the demuxer — one synthetic empty
packet through the decoder; nothing is pushed after `PushDone()`, so no
frame flushed by that packet reaches the channel. -/
theorem runDecoder_flush_on_stop (stop : Nat → Bool)
    (packets : List (Nat × List Nat)) (eofFrames : List Nat) :
    ∃ pushes : List Nat,
      RunDecoder stop packets eofFrames =
        pushes.map RunEvent.push ++ [RunEvent.pushDone] ++
          (if (runDecoderLoop stop 0 packets eofFrames).2.2 ≠ 0 then
            [RunEvent.decodeFlush]
          else []) := by
  obtain ⟨ids, hids⟩ := runDecoderLoop_only_push stop packets 0 eofFrames
  exact ⟨ids, by simp only [RunDecoder, hids]⟩

theorem frameLoop_neg_target (n : Nat) :
    ∀ (r : Nat) (w : SeekWorld) (cc : Nat) (tv : Int), tv < 0 →
      (frameLoop n w r cc tv).2.2 = false ∧
      (frameLoop n w r cc tv).1.su.mTargetFrames = w.su.mTargetFrames ∧
      (frameLoop n w r cc tv).2.1 < 0 ∧
      (frameLoop n w r cc tv).1.su.mPreviousTargetIndex =
        w.su.mPreviousTargetIndex := by
  intro r
  induction r with
  | zero => intro w cc tv htv; exact ⟨rfl, rfl, htv, rfl⟩
  | succ r ih =>
      intro w cc tv htv
      simp only [frameLoop]
      split_ifs with hdup hpts htv0 hcc
      · exact ih _ _ _ htv
      · exact ih _ _ _ htv
      · exact absurd htv0 (by omega)
      · exact absurd htv0 (by omega)
      · exact ih _ _ _ (by omega)

theorem demuxStep_preserves (w : SeekWorld) (lastKey : Bool) :
    (demuxStep w lastKey).1.su.mTargetFrames = w.su.mTargetFrames ∧
      (demuxStep w lastKey).1.su.mPreviousTargetIndex =
        w.su.mPreviousTargetIndex := by
  simp only [demuxStep]
  split_ifs <;> exact ⟨rfl, rfl⟩

theorem demuxLoop_neg_target :
    ∀ (fuel : Nat) (w : SeekWorld) (lastKey : Bool) (tv : Int), tv < 0 →
      (demuxLoop fuel w lastKey tv).2 = false ∧
      (demuxLoop fuel w lastKey tv).1.su.mTargetFrames = w.su.mTargetFrames ∧
      (demuxLoop fuel w lastKey tv).1.su.mPreviousTargetIndex =
        w.su.mPreviousTargetIndex := by
  intro fuel
  induction fuel with
  | zero => intro w k tv h; exact ⟨rfl, rfl, rfl⟩
  | succ fuel ih =>
      intro w k tv h
      obtain ⟨hfound, hT, htv, hP⟩ :=
        frameLoop_neg_target (demuxStep w k).2.1 (demuxStep w k).2.1
          (demuxStep w k).1 0 tv h
      obtain ⟨hT2, hP2⟩ := demuxStep_preserves w k
      simp only [demuxLoop, hfound, Bool.false_eq_true, if_false]
      by_cases heos : (demuxStep w k).2.2.2 = true
      · simp only [heos, if_true]
        refine ⟨by simp, hT.trans hT2, hP.trans hP2⟩
      · simp only [heos, if_false]
        obtain ⟨f3, t3, p3⟩ := ih _ (demuxStep w k).2.2.1 _ htv
        exact ⟨f3, t3.trans (hT.trans hT2), p3.trans (hP.trans hP2)⟩

theorem processIndex_no_replay (w : SeekWorld) (i : Nat)
    (hseek : (ShouldSeek (worldKf w) w.su.mPreviousTargetIndex (i : Int)).1 = false)
    (hvalid : (ShouldSeek (worldKf w) w.su.mPreviousTargetIndex (i : Int)).2 ≠
      INVALID_INDEX_ENTRY)
    (hbehind : (i : Int) - w.su.mFramesDecodedTillNow +
        (w.su.mPendingFrames.length : Int) < 0)
    (hrange : -(2 : Int) ^ 64 < (i : Int) - w.su.mFramesDecodedTillNow) :
    (processIndex w i).su.mTargetFrames = w.su.mTargetFrames ∧
      (processIndex w i).su.mPreviousTargetIndex =
        w.su.mPreviousTargetIndex := by
  have hlen : (0 : Int) ≤ (w.su.mPendingFrames.length : Int) :=
    Int.natCast_nonneg _
  have htv : (i : Int) - w.su.mFramesDecodedTillNow < 0 := by omega
  have hpow : (2 : Int) ^ 64 = 18446744073709551616 := by norm_num
  have hcond : ¬ ((((i : Int) - w.su.mFramesDecodedTillNow +
      (w.su.mPendingFrames.length : Int)) % (2 : Int) ^ 64).toNat ≤
        w.su.mPendingFrames.length) := by
    rw [hpow]
    omega
  unfold processIndex
  rw [if_neg hvalid]
  simp only [hseek, Bool.false_eq_true, if_false, htv, if_true, hcond,
    ite_true, ite_false]
  constructor
  · split
    next hfound =>
      rw [(demuxLoop_neg_target _ _ false _ htv).1] at hfound
      simp at hfound
    next => rw [(demuxLoop_neg_target _ _ false _ htv).2.1]
  · split
    next hfound =>
      rw [(demuxLoop_neg_target _ _ false _ htv).1] at hfound
      simp at hfound
    next => rw [(demuxLoop_neg_target _ _ false _ htv).2.2]

/-- C8 counterexample: on the four-frame stream, resolving index 1 once
yields the frame with timestamp 1, but resolving the same index again with
no intervening seek or reconfiguration yields no frame at all — the request
falls at `targetValue = -1`, the pending-branch bound check
(`actual_idx <= mPendingFrames.size()`, a signed/unsigned comparison)
rejects it, and the decode loop runs to end of stream without ever reaching
`targetValue == 0`. -/
theorem resolveSameIndex_counterexample :
    (GetFramesByIdxList (initWorld video1) [1]).1 =
        [{ data := 1, timestamp := 1 }] ∧
      (GetFramesByIdxList c8World [1]).1 = [] ∧
      (GetFramesByIdxList c8World [1]).2.su.mbEOSreached = true := by
  decide

/-- C8 as amended: re-resolving an index already strictly behind the decode
position (`ShouldSeek` reports no seek with a valid key-frame index, and the
index lies before even the start of the pending window — the situation left
behind by a successful resolve of that same index) returns no frame for it:
the result list of `GetFramesByIdxList` on that single index is empty and
`mPreviousTargetIndex` is not updated.  The same-timestamp idempotence of
the spec holds only through the caller path that reconfigures on a
backward/equal request (`ResetDecoderIfRequired`). -/
theorem resolveSameIndex_no_replay (w : SeekWorld) (i : Nat)
    (hseek : (ShouldSeek (worldKf w) w.su.mPreviousTargetIndex (i : Int)).1 = false)
    (hvalid : (ShouldSeek (worldKf w) w.su.mPreviousTargetIndex (i : Int)).2 ≠
      INVALID_INDEX_ENTRY)
    (hbehind : (i : Int) - w.su.mFramesDecodedTillNow +
        (w.su.mPendingFrames.length : Int) < 0)
    (hrange : -(2 : Int) ^ 64 < (i : Int) - w.su.mFramesDecodedTillNow) :
    (GetFramesByIdxList w [i]).1 = [] ∧
      (GetFramesByIdxList w [i]).2.su.mPreviousTargetIndex =
        w.su.mPreviousTargetIndex := by
  have h := processIndex_no_replay
    { w with su := { w.su with mTargetFrames := [] } } i hseek hvalid hbehind hrange
  simp only [GetFramesByIdxList, List.foldl]
  exact ⟨h.1, h.2⟩

/-- Witness for C8: the amended statement applied to the post-first-resolve
world of the four-frame stream. -/
theorem resolveSameIndex_no_replay_witness :
    (GetFramesByIdxList c8World [1]).1 = [] ∧
      (GetFramesByIdxList c8World [1]).2.su.mPreviousTargetIndex = 1 := by
  have h := resolveSameIndex_no_replay c8World 1 (by decide) (by decide)
    (by decide) (by decide)
  exact ⟨h.1, by rw [h.2]; decide⟩
